import Mathlib

/-!
# Verification of the grade aggregation state machine

Shallow embedding of `GradeStateMachine` (and its collaborators
`GradingOpportunity` and `GradeChange`) from `course/models.py`, together
with theorems settling the specification claims about it.

Modelling conventions:
* timestamps (`grade_time`, `due_time`) are integers `ℤ`;
* decimal point values (`points`, `max_points`) are rationals `ℚ`;
* Python `None` is `Option.none`;
* Python exceptions are the explicit error values of `PyErr`; a function
  that can raise returns `Except PyErr _`;
* the caller's mutable event objects are modelled as a list ("store")
  threaded through the reduction; object identity is the position in that
  list, and in-place field assignment is an update at that position.
-/

namespace Relate

/-- The closed taxonomy of `grade_state_change_types` in the source. -/
inductive GStateTy where
  | grading_started
  | graded
  | retrieved
  | unavailable
  | extension
  | report_sent
  | do_over
  | exempt
deriving DecidableEq, Repr

/-- The enum `grade_aggregation_strategy` in the source. -/
inductive AggStrategy where
  | max_grade
  | min_grade
  | avg_grade
  | use_earliest
  | use_latest
deriving DecidableEq, Repr

/-- The exceptions the reduction code can raise.  The first five carry the
spec's names for the corresponding error conditions; `typeError` and
`attributeError` are the Python `TypeError` (arithmetic on `None`) and
`AttributeError` (attribute accessed after `del`). -/
inductive PyErr where
  | invalidSequence
  | outOfOrderEvent
  | gradeRejectedUnavailable
  | gradeRejectedExempt
  | gradeAfterDueDate
  | unknownState
  | typeError
  | attributeError
deriving DecidableEq, Repr

/-- Model of `GradingOpportunity` (the fields the reducer reads: primary key for the
same-opportunity assertion, aggregation strategy, optional due time). -/
structure GradingOpportunity where
  pk : ℕ
  aggregation_strategy : AggStrategy
  due_time : Option ℤ
deriving DecidableEq, Repr

/-- Model of `GradeChange`: one record of the event log, with the fields the reducer
reads, plus the mutable `is_superseded` flag that `consume` writes onto the
caller's objects. -/
structure GradeChange where
  opportunity : GradingOpportunity
  state : GStateTy
  attempt_id : Option String
  points : Option ℚ
  max_points : Option ℚ
  due_time : Option ℤ
  grade_time : ℤ
  is_superseded : Bool := false
deriving DecidableEq, Repr

/-- The method `GradeChange.percentage`:
```
if self.max_points is not None:
    return 100*self.points/self.max_points
else:
    return None
```
When `max_points` is present but `points` is `None`, the Python expression
`100*self.points` raises `TypeError`. -/
def GradeChange.percentage (gc : GradeChange) : Except PyErr (Option ℚ) :=
  match gc.max_points with
  | none => .ok none
  | some mp =>
    match gc.points with
    | none => .error .typeError
    | some p => .ok (some (100 * p / mp))

/-- In-place update of the object at position `i` of the store (a no-op when
`i` is out of range, which never happens in the reduction). -/
def modifyIdx (l : List GradeChange) (i : ℕ) (f : GradeChange → GradeChange) :
    List GradeChange :=
  match l, i with
  | [], _ => []
  | x :: xs, 0 => f x :: xs
  | x :: xs, n + 1 => x :: modifyIdx xs n f

/-- The attempt map `attempt_id_to_gchange`: an insertion-ordered dictionary
from attempt id to the store position and value of the most recent `graded`
event with that id. -/
abbrev AttemptMap := List (String × (ℕ × GradeChange))

def dictFind (m : AttemptMap) (k : String) : Option (ℕ × GradeChange) :=
  match m with
  | [] => none
  | (k', v) :: rest => if k' = k then some v else dictFind rest k

/-- Assignment `d[k] = v`: replaces the value at an existing key in place, otherwise
appends a new entry. -/
def dictInsert (m : AttemptMap) (k : String) (v : ℕ × GradeChange) : AttemptMap :=
  match m with
  | [] => [(k, v)]
  | (k', v') :: rest =>
    if k' = k then (k, v) :: rest else (k', v') :: dictInsert rest k v

/-- The state carried by `GradeStateMachine`.  `attempt_id_to_gchange` is
`none` after `consume` has executed `del self.attempt_id_to_gchange`;
accessing it then raises `AttributeError`. -/
structure GradeStateMachine where
  opportunity : Option GradingOpportunity
  state : Option GStateTy
  due_time : Option ℤ
  last_graded_time : Option ℤ
  last_report_time : Option ℤ
  /-- The attribute `_last_grade_change_time`. -/
  last_grade_change_time : Option ℤ
  /-- The attribute `last_grade_time`, assigned only by `_clear_grades`. -/
  last_grade_time : Option ℤ
  valid_percentages : List (Option ℚ)
  attempt_id_to_gchange : Option AttemptMap
deriving DecidableEq, Repr

namespace GradeStateMachine

/-- The method `_clear_grades`. -/
def clear_grades (sm : GradeStateMachine) : GradeStateMachine :=
  { sm with
    state := none
    last_grade_time := none
    valid_percentages := []
    attempt_id_to_gchange := some [] }

/-- The constructor `__init__` (which calls `_clear_grades`). -/
def init : GradeStateMachine :=
  { opportunity := none
    state := none
    due_time := none
    last_graded_time := none
    last_report_time := none
    last_grade_change_time := none
    last_grade_time := none
    valid_percentages := []
    attempt_id_to_gchange := some [] }

/-- The opportunity bookkeeping at the top of `_consume_grade_change`:
adopt the first event's opportunity (and its due time), afterwards assert
that every event references the same opportunity. -/
def consumeOpportunity (sm : GradeStateMachine) (gchange : GradeChange) :
    Except PyErr GradeStateMachine :=
  match sm.opportunity with
  | none =>
    .ok { sm with
          opportunity := some gchange.opportunity
          due_time := gchange.opportunity.due_time }
  | some opp =>
    if opp.pk = gchange.opportunity.pk then .ok sm else .error .invalidSequence

/-- The `# check that times are increasing` block of `_consume_grade_change`:
```
if self._last_grade_change_time is not None:
    assert gchange.grade_time > self._last_grade_change_time
    self._last_grade_change_time = gchange.grade_time
```
Note that the assignment sits inside the `if` body, so the attribute is
never moved away from its initial `None`. -/
def consumeTimeCheck (sm : GradeStateMachine) (gchange : GradeChange) :
    Except PyErr GradeStateMachine :=
  match sm.last_grade_change_time with
  | none => .ok sm
  | some t =>
    if gchange.grade_time > t then
      .ok { sm with last_grade_change_time := some gchange.grade_time }
    else
      .error .outOfOrderEvent

/-- The `graded` branch of `_consume_grade_change`, after the
unavailable/exempt/due-date guards have passed and `state` has been set. -/
def consumeGraded (sm : GradeStateMachine) (store : List GradeChange)
    (gchange : GradeChange) (gidx : ℕ) (set_is_superseded : Bool) :
    Except PyErr (GradeStateMachine × List GradeChange) :=
  match gchange.attempt_id with
  | some aid =>
    match sm.attempt_id_to_gchange with
    | none => .error .attributeError
    | some m =>
      let store :=
        if set_is_superseded then
          match dictFind m aid with
          | some (j, _) => modifyIdx store j (fun x => { x with is_superseded := true })
          | none => store
        else store
      .ok ({ sm with
             attempt_id_to_gchange := some (dictInsert m aid (gidx, gchange))
             last_graded_time := some gchange.grade_time }, store)
  | none =>
    match gchange.percentage with
    | .error e => .error e
    | .ok pct =>
      .ok ({ sm with
             valid_percentages := sm.valid_percentages ++ [pct]
             last_graded_time := some gchange.grade_time }, store)

/-- The method `_consume_grade_change`; `gidx` is the store position of `gchange`. -/
def consume_grade_change (sm : GradeStateMachine) (store : List GradeChange)
    (gchange : GradeChange) (gidx : ℕ) (set_is_superseded : Bool) :
    Except PyErr (GradeStateMachine × List GradeChange) :=
  match consumeOpportunity sm gchange with
  | .error e => .error e
  | .ok sm =>
    match consumeTimeCheck sm gchange with
    | .error e => .error e
    | .ok sm =>
      match gchange.state with
      | .graded =>
        if sm.state = some .unavailable then .error .gradeRejectedUnavailable
        else if sm.state = some .exempt then .error .gradeRejectedExempt
        else
          match sm.due_time with
          | some dt =>
            if gchange.grade_time > dt then .error .gradeAfterDueDate
            else consumeGraded { sm with state := some .graded } store gchange gidx
                set_is_superseded
          | none =>
            consumeGraded { sm with state := some .graded } store gchange gidx
              set_is_superseded
      | .unavailable => .ok ({ sm.clear_grades with state := some .unavailable }, store)
      | .do_over => .ok (sm.clear_grades, store)
      | .exempt => .ok ({ sm.clear_grades with state := some .exempt }, store)
      | .report_sent => .ok ({ sm with last_report_time := some gchange.grade_time }, store)
      | .extension => .ok ({ sm with due_time := gchange.due_time }, store)
      | .grading_started => .ok (sm, store)
      | .retrieved => .ok (sm, store)

/-- Percentages of the values remaining in the attempt map (the generator in
`consume`'s `extend` call); any `percentage()` failure aborts. -/
def mapPercentages (gcs : List GradeChange) : Except PyErr (List (Option ℚ)) :=
  match gcs with
  | [] => .ok []
  | gc :: rest =>
    match gc.percentage with
    | .error e => .error e
    | .ok p =>
      match mapPercentages rest with
      | .error e => .error e
      | .ok ps => .ok (p :: ps)

/-- The `for gchange in iterable` loop of `consume`: reset each event's
`is_superseded` flag, then feed it to `_consume_grade_change`.  The events
are iterated as (store position, value) pairs. -/
def consumeEvents (b : Bool) :
    GradeStateMachine → List GradeChange → List (ℕ × GradeChange) →
    Except PyErr (GradeStateMachine × List GradeChange)
  | sm, store, [] => .ok (sm, store)
  | sm, store, (i, g) :: rest =>
    let store' := modifyIdx store i (fun x => { x with is_superseded := false })
    let g' := { g with is_superseded := false }
    match consume_grade_change sm store' g' i b with
    | .error e => .error e
    | .ok (sm', store'') => consumeEvents b sm' store'' rest

/-- The finalization at the end of `consume`: flush the attempt map's values
into `valid_percentages`, then `del self.attempt_id_to_gchange`. -/
def finalize (sm : GradeStateMachine) : Except PyErr GradeStateMachine :=
  match sm.attempt_id_to_gchange with
  | none => .error .attributeError
  | some m =>
    match mapPercentages (m.map (fun kv => kv.2.2)) with
    | .error e => .error e
    | .ok ps =>
      .ok { sm with
            valid_percentages := sm.valid_percentages ++ ps
            attempt_id_to_gchange := none }

/-- Pair each event with its position in the caller's list. -/
def indexed (events : List GradeChange) : List (ℕ × GradeChange) :=
  (List.range events.length).zip events

/-- The method `consume`: run the event loop, then finalize.  Returns the machine
(`return self`) together with the caller's event objects as mutated. -/
def consume (sm : GradeStateMachine) (events : List GradeChange)
    (set_is_superseded : Bool) :
    Except PyErr (GradeStateMachine × List GradeChange) :=
  match consumeEvents set_is_superseded sm events (indexed events) with
  | .error e => .error e
  | .ok (sm', store') =>
    match finalize sm' with
    | .error e => .error e
    | .ok sm'' => .ok (sm'', store')

/-- Python 2 `max` of two values where `None` compares below every number
(the elements of `valid_percentages` are Python objects that may be `None`). -/
def pyMax2 (a b : Option ℚ) : Option ℚ :=
  match a, b with
  | none, b => b
  | some x, none => some x
  | some x, some y => if x ≥ y then some x else some y

/-- Python 2 `min` of two values, `None` below every number. -/
def pyMin2 (a b : Option ℚ) : Option ℚ :=
  match a, b with
  | none, _ => none
  | some _, none => none
  | some x, some y => if x ≤ y then some x else some y

/-- Python `max` over a nonempty list (first element as seed). -/
def pymax (l : List (Option ℚ)) : Option ℚ :=
  match l with
  | [] => none
  | x :: xs => xs.foldl pyMax2 x

/-- Python `min` over a nonempty list. -/
def pymin (l : List (Option ℚ)) : Option ℚ :=
  match l with
  | [] => none
  | x :: xs => xs.foldl pyMin2 x

/-- Python `sum`: `0 + x₀ + x₁ + ⋯`; adding `None` raises `TypeError`. -/
def pysum (l : List (Option ℚ)) : Except PyErr ℚ :=
  match l with
  | [] => .ok 0
  | none :: _ => .error .typeError
  | some x :: xs =>
    match pysum xs with
    | .error e => .error e
    | .ok s => .ok (x + s)

/-- The query `GradeStateMachine.percentage`. -/
def percentage (sm : GradeStateMachine) : Except PyErr (Option ℚ) :=
  match sm.opportunity with
  | none => .ok none
  | some opp =>
    if sm.valid_percentages = [] then .ok none
    else
      match opp.aggregation_strategy with
      | .max_grade => .ok (pymax sm.valid_percentages)
      | .min_grade => .ok (pymin sm.valid_percentages)
      | .avg_grade =>
        match pysum sm.valid_percentages with
        | .error e => .error e
        | .ok s => .ok (some (s / (sm.valid_percentages.length : ℚ)))
      | .use_earliest => .ok (sm.valid_percentages.headD none)
      | .use_latest => .ok (sm.valid_percentages.getLastD none)

end GradeStateMachine

/-- Round a rational to the nearest integer, ties to even (the rounding of
`"%.1f" %` after scaling, in exact arithmetic). -/
def roundHalfEven (q : ℚ) : ℤ :=
  let f := ⌊q⌋
  let r := q - (f : ℚ)
  if r < 1/2 then f
  else if r > 1/2 then f + 1
  else if f % 2 = 0 then f else f + 1

/-- Formatting `"%.1f" % q`: one decimal digit, rounded to nearest (ties to even). -/
def formatPct1 (q : ℚ) : String :=
  let n := roundHalfEven (q * 10)
  let sign := if n < 0 then "-" else ""
  let m := n.natAbs
  sign ++ toString (m / 10) ++ "." ++ toString (m % 10)

namespace GradeStateMachine

/-- The query `stringify_state`.  In the `graded` branch, `"%.1f%%" % self.percentage()`
raises `TypeError` when `percentage()` returned `None`. -/
def stringify_state (sm : GradeStateMachine) : Except PyErr String :=
  match sm.state with
  | none => .ok "-"
  | some .exempt => .ok "(exempt)"
  | some .graded =>
    match sm.percentage with
    | .error e => .error e
    | .ok none => .error .typeError
    | .ok (some q) =>
      let result := formatPct1 q ++ "%"
      .ok (if sm.valid_percentages.length > 1 then
            result ++ " (/" ++ toString sm.valid_percentages.length ++ ")"
          else result)
  | some _ => .ok "(other state)"

end GradeStateMachine

namespace GradeStateMachine

/-- Adopting the first event's opportunity: consuming with an unset
opportunity equals consuming after adopting the event's opportunity and its
due time. -/
theorem consume_grade_change_first (sm : GradeStateMachine)
    (store : List GradeChange) (g : GradeChange) (i : ℕ) (b : Bool)
    (h : sm.opportunity = none) :
    consume_grade_change sm store g i b =
      consume_grade_change
        { sm with opportunity := some g.opportunity
                  due_time := g.opportunity.due_time } store g i b := by
  unfold consume_grade_change consumeOpportunity
  simp [h]

/-- With a matching opportunity and a still-`None` `_last_grade_change_time`,
the two leading guards are no-ops. -/
theorem consume_grade_change_ready (sm : GradeStateMachine)
    (store : List GradeChange) (g : GradeChange) (i : ℕ) (b : Bool)
    (opp : GradingOpportunity)
    (hop : sm.opportunity = some opp) (hpk : opp.pk = g.opportunity.pk)
    (hlg : sm.last_grade_change_time = none) :
    consume_grade_change sm store g i b =
      match g.state with
      | .graded =>
        if sm.state = some .unavailable then .error .gradeRejectedUnavailable
        else if sm.state = some .exempt then .error .gradeRejectedExempt
        else
          match sm.due_time with
          | some dt =>
            if g.grade_time > dt then .error .gradeAfterDueDate
            else consumeGraded { sm with state := some .graded } store g i b
          | none => consumeGraded { sm with state := some .graded } store g i b
      | .unavailable => .ok ({ sm.clear_grades with state := some .unavailable }, store)
      | .do_over => .ok (sm.clear_grades, store)
      | .exempt => .ok ({ sm.clear_grades with state := some .exempt }, store)
      | .report_sent => .ok ({ sm with last_report_time := some g.grade_time }, store)
      | .extension => .ok ({ sm with due_time := g.due_time }, store)
      | .grading_started => .ok (sm, store)
      | .retrieved => .ok (sm, store) := by
  unfold consume_grade_change consumeOpportunity consumeTimeCheck
  simp [hop, hpk, hlg]

end GradeStateMachine

/-- Forget the mutable `is_superseded` flag of an event (all caller-visible
fields except the supersession flag). -/
def eraseSup (g : GradeChange) : GradeChange := { g with is_superseded := false }

theorem modifyIdx_map_eraseSup (l : List GradeChange) (i : ℕ)
    (f : GradeChange → GradeChange) (hf : ∀ x, eraseSup (f x) = eraseSup x) :
    (modifyIdx l i f).map eraseSup = l.map eraseSup := by
  induction l generalizing i with
  | nil => rfl
  | cons x xs ih =>
    cases i with
    | zero => simp [modifyIdx, hf]
    | succ n => simp [modifyIdx, ih]

theorem dictInsert_ne_nil (m : AttemptMap) (k : String) (v : ℕ × GradeChange) :
    dictInsert m k v ≠ [] := by
  cases m with
  | nil => simp [dictInsert]
  | cons kv rest =>
    unfold dictInsert
    split <;> simp

theorem dictFind_dictInsert (m : AttemptMap) (k : String) (v : ℕ × GradeChange) :
    dictFind (dictInsert m k v) k = some v := by
  induction m with
  | nil => simp [dictInsert, dictFind]
  | cons kv rest ih =>
    unfold dictInsert
    split
    · simp [dictFind]
    · rename_i hne
      simp [dictFind, hne, ih]

theorem GradeChange.percentage_error (g : GradeChange) (e : PyErr)
    (h : g.percentage = .error e) : e = .typeError := by
  unfold GradeChange.percentage at h
  split at h
  · exact absurd h (by simp)
  · split at h
    · simp only [Except.error.injEq] at h
      exact h.symm
    · exact absurd h (by simp)

namespace GradeStateMachine

theorem consume_grade_change_mismatch (sm : GradeStateMachine)
    (store : List GradeChange) (g : GradeChange) (i : ℕ) (b : Bool)
    (opp : GradingOpportunity) (hop : sm.opportunity = some opp)
    (hpk : ¬(opp.pk = g.opportunity.pk)) :
    consume_grade_change sm store g i b = .error .invalidSequence := by
  unfold consume_grade_change consumeOpportunity
  simp [hop, hpk]

theorem consumeGraded_ok (sm : GradeStateMachine) (store : List GradeChange)
    (g : GradeChange) (i : ℕ) (b : Bool) (sm' : GradeStateMachine)
    (store' : List GradeChange)
    (h : consumeGraded sm store g i b = .ok (sm', store')) :
    sm'.opportunity = sm.opportunity ∧
    sm'.state = sm.state ∧
    sm'.due_time = sm.due_time ∧
    sm'.last_grade_change_time = sm.last_grade_change_time ∧
    store'.map eraseSup = store.map eraseSup ∧
    (sm'.valid_percentages ≠ [] ∨
      ∃ m', sm'.attempt_id_to_gchange = some m' ∧ m' ≠ []) := by
  unfold consumeGraded at h
  split at h
  · -- attempt_id = some aid
    split at h
    · exact absurd h (by simp)
    · rw [Except.ok.injEq, Prod.mk.injEq] at h
      obtain ⟨hsm, hst⟩ := h
      subst hsm hst
      refine ⟨rfl, rfl, rfl, rfl, ?_, ?_⟩
      · split
        · split
          · exact modifyIdx_map_eraseSup _ _ _ (fun x => rfl)
          · rfl
        · rfl
      · exact Or.inr ⟨_, rfl, dictInsert_ne_nil _ _ _⟩
  · -- attempt_id = none
    split at h
    · exact absurd h (by simp)
    · rw [Except.ok.injEq, Prod.mk.injEq] at h
      obtain ⟨hsm, hst⟩ := h
      subst hsm hst
      exact ⟨rfl, rfl, rfl, rfl, rfl, Or.inl (by simp)⟩

theorem consumeGraded_error (sm : GradeStateMachine) (store : List GradeChange)
    (g : GradeChange) (i : ℕ) (b : Bool) (e : PyErr)
    (h : consumeGraded sm store g i b = .error e) :
    e = .attributeError ∨ e = .typeError := by
  unfold consumeGraded at h
  split at h
  · split at h
    · simp only [Except.error.injEq] at h
      exact Or.inl h.symm
    · exact absurd h (by simp)
  · split at h
    · rename_i e' hp
      simp only [Except.error.injEq] at h
      exact Or.inr (h ▸ GradeChange.percentage_error _ _ hp)
    · exact absurd h (by simp)

end GradeStateMachine

namespace GradeStateMachine

/-- A `graded` state is always witnessed by a contribution: either one
already appended to `valid_percentages` or one pending in the attempt map. -/
def GradedWitnessed (sm : GradeStateMachine) : Prop :=
  sm.state = some .graded →
    sm.valid_percentages ≠ [] ∨
    ∃ m, sm.attempt_id_to_gchange = some m ∧ m ≠ []

/-- One `_consume_grade_change` step, from a machine whose
`_last_grade_change_time` is still `None`: it never raises the out-of-order
assertion, and on success it keeps `_last_grade_change_time` at `None`,
changes the caller's events only in their `is_superseded` flag, and
preserves `GradedWitnessed`. -/
theorem consume_grade_change_step (sm : GradeStateMachine)
    (store : List GradeChange) (g : GradeChange) (i : ℕ) (b : Bool)
    (hlg : sm.last_grade_change_time = none) :
    (∀ e, consume_grade_change sm store g i b = .error e → e ≠ .outOfOrderEvent) ∧
    (∀ sm' store', consume_grade_change sm store g i b = .ok (sm', store') →
      sm'.last_grade_change_time = none ∧
      store'.map eraseSup = store.map eraseSup ∧
      (GradedWitnessed sm → GradedWitnessed sm')) := by
  suffices hsome : ∀ (sm : GradeStateMachine) (opp : GradingOpportunity),
      sm.opportunity = some opp → sm.last_grade_change_time = none →
      (∀ e, consume_grade_change sm store g i b = .error e → e ≠ .outOfOrderEvent) ∧
      (∀ sm' store', consume_grade_change sm store g i b = .ok (sm', store') →
        sm'.last_grade_change_time = none ∧
        store'.map eraseSup = store.map eraseSup ∧
        (GradedWitnessed sm → GradedWitnessed sm')) by
    cases hopp : sm.opportunity with
    | some opp => exact hsome sm opp hopp hlg
    | none =>
      rw [consume_grade_change_first sm store g i b hopp]
      exact hsome _ g.opportunity rfl hlg
  intro sm opp hopp hlg
  by_cases hpk : opp.pk = g.opportunity.pk
  · rw [consume_grade_change_ready sm store g i b opp hopp hpk hlg]
    cases hgs : g.state with
    | graded =>
      refine ⟨?_, ?_⟩ <;> simp only []
      · intro e he
        split at he
        · exact fun hc => by simp [Except.error.injEq] at he; simp [← he] at hc
        · split at he
          · exact fun hc => by simp [Except.error.injEq] at he; simp [← he] at hc
          · split at he
            · split at he
              · exact fun hc => by simp [Except.error.injEq] at he; simp [← he] at hc
              · intro hc
                subst hc
                rcases consumeGraded_error _ _ _ _ _ _ he with h | h <;> simp at h
            · intro hc
              subst hc
              rcases consumeGraded_error _ _ _ _ _ _ he with h | h <;> simp at h
      · intro sm' store' hok
        split at hok
        · exact absurd hok (by simp)
        · split at hok
          · exact absurd hok (by simp)
          · split at hok
            · split at hok
              · exact absurd hok (by simp)
              · obtain ⟨h1, h2, h3, h4, h5, h6⟩ := consumeGraded_ok _ _ _ _ _ _ _ hok
                refine ⟨by rw [h4]; exact hlg, h5, fun _ _ => ?_⟩
                exact h6
            · obtain ⟨h1, h2, h3, h4, h5, h6⟩ := consumeGraded_ok _ _ _ _ _ _ _ hok
              refine ⟨by rw [h4]; exact hlg, h5, fun _ _ => ?_⟩
              exact h6
    | unavailable =>
      refine ⟨by intro e he; exact absurd he (by simp), ?_⟩
      intro sm' store' hok
      simp only [Except.ok.injEq, Prod.mk.injEq] at hok
      obtain ⟨h1, h2⟩ := hok
      subst h1; subst h2
      exact ⟨hlg, rfl, fun _ h => by simp [clear_grades] at h⟩
    | exempt =>
      refine ⟨by intro e he; exact absurd he (by simp), ?_⟩
      intro sm' store' hok
      simp only [Except.ok.injEq, Prod.mk.injEq] at hok
      obtain ⟨h1, h2⟩ := hok
      subst h1; subst h2
      exact ⟨hlg, rfl, fun _ h => by simp [clear_grades] at h⟩
    | do_over =>
      refine ⟨by intro e he; exact absurd he (by simp), ?_⟩
      intro sm' store' hok
      simp only [Except.ok.injEq, Prod.mk.injEq] at hok
      obtain ⟨h1, h2⟩ := hok
      subst h1; subst h2
      exact ⟨hlg, rfl, fun _ h => by simp [clear_grades] at h⟩
    | report_sent =>
      refine ⟨by intro e he; exact absurd he (by simp), ?_⟩
      intro sm' store' hok
      simp only [Except.ok.injEq, Prod.mk.injEq] at hok
      obtain ⟨h1, h2⟩ := hok
      subst h1; subst h2
      exact ⟨hlg, rfl, fun hw => hw⟩
    | extension =>
      refine ⟨by intro e he; exact absurd he (by simp), ?_⟩
      intro sm' store' hok
      simp only [Except.ok.injEq, Prod.mk.injEq] at hok
      obtain ⟨h1, h2⟩ := hok
      subst h1; subst h2
      exact ⟨hlg, rfl, fun hw => hw⟩
    | grading_started =>
      refine ⟨by intro e he; exact absurd he (by simp), ?_⟩
      intro sm' store' hok
      simp only [Except.ok.injEq, Prod.mk.injEq] at hok
      obtain ⟨h1, h2⟩ := hok
      subst h1; subst h2
      exact ⟨hlg, rfl, fun hw => hw⟩
    | retrieved =>
      refine ⟨by intro e he; exact absurd he (by simp), ?_⟩
      intro sm' store' hok
      simp only [Except.ok.injEq, Prod.mk.injEq] at hok
      obtain ⟨h1, h2⟩ := hok
      subst h1; subst h2
      exact ⟨hlg, rfl, fun hw => hw⟩
  · rw [consume_grade_change_mismatch sm store g i b opp hopp hpk]
    refine ⟨?_, ?_⟩
    · intro e he
      simp only [Except.error.injEq] at he
      simp [← he]
    · intro sm' store' hok
      exact absurd hok (by simp)


end GradeStateMachine

namespace GradeStateMachine

/-- The event loop of `consume`, from a machine whose
`_last_grade_change_time` is `None` (as `__init__` leaves it, and as every
step keeps it): the out-of-order assertion never fires, and on success the
caller's events change only in their `is_superseded` flags and
`GradedWitnessed` is preserved. -/
theorem consumeEvents_step (b : Bool) (ps : List (ℕ × GradeChange)) :
    ∀ (sm : GradeStateMachine) (store : List GradeChange),
      sm.last_grade_change_time = none →
      (∀ e, consumeEvents b sm store ps = .error e → e ≠ .outOfOrderEvent) ∧
      (∀ sm' store', consumeEvents b sm store ps = .ok (sm', store') →
        sm'.last_grade_change_time = none ∧
        store'.map eraseSup = store.map eraseSup ∧
        (GradedWitnessed sm → GradedWitnessed sm')) := by
  induction ps with
  | nil =>
    intro sm store hlg
    refine ⟨fun e h => absurd h (by simp [consumeEvents]), ?_⟩
    intro sm' store' h
    simp only [consumeEvents, Except.ok.injEq, Prod.mk.injEq] at h
    obtain ⟨h1, h2⟩ := h
    subst h1; subst h2
    exact ⟨hlg, rfl, fun hw => hw⟩
  | cons p rest ih =>
    intro sm store hlg
    obtain ⟨i, g⟩ := p
    have hmap : (modifyIdx store i (fun x => { x with is_superseded := false })).map
        eraseSup = store.map eraseSup :=
      modifyIdx_map_eraseSup _ _ _ (fun x => rfl)
    have hstep := consume_grade_change_step sm
      (modifyIdx store i (fun x => { x with is_superseded := false }))
      { g with is_superseded := false } i b hlg
    constructor
    · intro e h
      simp only [consumeEvents] at h
      cases hcg : consume_grade_change sm
          (modifyIdx store i (fun x => { x with is_superseded := false }))
          { g with is_superseded := false } i b with
      | error e' =>
        rw [hcg] at h
        simp only [Except.error.injEq] at h
        exact h ▸ hstep.1 e' hcg
      | ok pr =>
        rw [hcg] at h
        exact (ih pr.1 pr.2 (hstep.2 pr.1 pr.2 (by rw [hcg])).1).1 e h
    · intro sm' store' h
      simp only [consumeEvents] at h
      cases hcg : consume_grade_change sm
          (modifyIdx store i (fun x => { x with is_superseded := false }))
          { g with is_superseded := false } i b with
      | error e' => rw [hcg] at h; exact absurd h (by simp)
      | ok pr =>
        rw [hcg] at h
        obtain ⟨ha, hb, hc⟩ := hstep.2 pr.1 pr.2 (by rw [hcg])
        obtain ⟨ha', hb', hc'⟩ := (ih pr.1 pr.2 ha).2 sm' store' h
        exact ⟨ha', by rw [hb', hb, hmap], fun hw => hc' (hc hw)⟩

theorem mapPercentages_length (l : List GradeChange) :
    ∀ ps, mapPercentages l = .ok ps → ps.length = l.length := by
  induction l with
  | nil =>
    intro ps h
    simp only [mapPercentages, Except.ok.injEq] at h
    subst h; rfl
  | cons gc rest ih =>
    intro ps h
    unfold mapPercentages at h
    split at h
    · exact absurd h (by simp)
    · split at h
      · exact absurd h (by simp)
      · rename_i p hp ps' hps'
        simp only [Except.ok.injEq] at h
        subst h
        simp [ih ps' hps']

theorem finalize_ok (sm sm'' : GradeStateMachine) (h : finalize sm = .ok sm'') :
    sm''.state = sm.state ∧ sm''.opportunity = sm.opportunity ∧
    ∃ m ps, sm.attempt_id_to_gchange = some m ∧
      mapPercentages (m.map (fun kv => kv.2.2)) = .ok ps ∧
      sm''.valid_percentages = sm.valid_percentages ++ ps := by
  unfold finalize at h
  split at h
  · exact absurd h (by simp)
  · split at h
    · exact absurd h (by simp)
    · simp only [Except.ok.injEq] at h
      subst h
      exact ⟨rfl, rfl, _, _, by assumption, by assumption, rfl⟩


end GradeStateMachine

deriving instance DecidableEq for Except

/-- Sample opportunity for concrete test scenarios. -/
def sampleOpp : GradingOpportunity :=
  { pk := 1, aggregation_strategy := .max_grade, due_time := none }

/-- A sample `graded` event for `sampleOpp` out of 100 points. -/
def sampleGraded (t : ℤ) (pts : Option ℚ) (aid : Option String) : GradeChange :=
  { opportunity := sampleOpp, state := .graded, attempt_id := aid,
    points := pts, max_points := some 100, due_time := none, grade_time := t }

namespace GradeStateMachine

theorem mapPercentages_error (l : List GradeChange) :
    ∀ e, mapPercentages l = .error e → e = .typeError := by
  induction l with
  | nil => intro e h; exact absurd h (by simp [mapPercentages])
  | cons gc rest ih =>
    intro e h
    unfold mapPercentages at h
    split at h
    · rename_i e' hp
      simp only [Except.error.injEq] at h
      exact h ▸ GradeChange.percentage_error _ _ hp
    · split at h
      · rename_i e' hp
        simp only [Except.error.injEq] at h
        exact h ▸ ih e' hp
      · exact absurd h (by simp)

theorem finalize_error (sm : GradeStateMachine) (e : PyErr)
    (h : finalize sm = .error e) : e = .attributeError ∨ e = .typeError := by
  unfold finalize at h
  split at h
  · simp only [Except.error.injEq] at h
    exact Or.inl h.symm
  · split at h
    · rename_i e' hp
      simp only [Except.error.injEq] at h
      exact Or.inr (h ▸ mapPercentages_error _ e' hp)
    · exact absurd h (by simp)

theorem finalize_map_none (sm sm'' : GradeStateMachine)
    (h : finalize sm = .ok sm'') : sm''.attempt_id_to_gchange = none := by
  unfold finalize at h
  split at h
  · exact absurd h (by simp)
  · split at h
    · exact absurd h (by simp)
    · simp only [Except.ok.injEq] at h
      subst h
      rfl

end GradeStateMachine

open GradeStateMachine in
/-- Claim C1.  The spec says equal or decreasing `grade_time` values must
fail with `OutOfOrderEvent`, and the source's comment (`# check that times
are increasing`) agrees; but the guard variable `_last_grade_change_time`
is only ever assigned inside the branch that requires it to already be
non-`None`, so it stays `None` forever and the assertion is dead code: a
sequence with equal timestamps is accepted, and no reduction started on a
fresh machine can ever fail with the out-of-order error. -/
theorem C1_ordering_check_never_fires :
    (consume .init
      [sampleGraded 5 (some 40) none, sampleGraded 5 (some 50) none] false).isOk = true ∧
    ∀ (events : List GradeChange) (b : Bool) (e : PyErr),
      consume .init events b = .error e → e ≠ .outOfOrderEvent := by
  constructor
  · decide
  · intro events b e h
    unfold consume at h
    split at h
    · rename_i e' hev
      simp only [Except.error.injEq] at h
      exact h ▸ (consumeEvents_step b (indexed events) .init events rfl).1 e' hev
    · split at h
      · rename_i sm1 store1 hev e' hfin
        simp only [Except.error.injEq] at h
        rcases finalize_error _ e' hfin with he | he <;> simp [h ▸ he]
      · exact absurd h (by simp)

/-- Witness for the universally quantified half of C1's theorem: a reduction
that does fail (absent `points` makes `percentage()` raise `TypeError`)
fails with an error other than `OutOfOrderEvent`. -/
theorem C1_ordering_check_never_fires_witness :
    (PyErr.typeError : PyErr) ≠ .outOfOrderEvent :=
  C1_ordering_check_never_fires.2 [sampleGraded 1 none none] false .typeError (by decide)

open GradeStateMachine in
/-- Claim C2.  The spec says an event's percentage is `100 × points /
max_points` when `points` is present and unset otherwise, with unset
percentages excluded from `valid_percentages`.  The code's guard tests
`max_points` (a non-nullable column) instead of `points`, so for a `graded`
event with `points` absent the expression `100*self.points/self.max_points`
is evaluated on `None` and the reduction dies with `TypeError` instead of
treating the percentage as unset: the first conjunct evaluates
`percentage()` at such an event, the second runs the whole reduction on it.
The third conjunct records the half of the claim the code does satisfy:
with `points` present, the percentage is `100 × points / max_points`. -/
theorem C2_percentage_guard_on_wrong_field :
    GradeChange.percentage (sampleGraded 1 none none) = .error .typeError ∧
    consume .init [sampleGraded 1 none none] false = .error .typeError ∧
    ∀ (gc : GradeChange) (p mp : ℚ), gc.points = some p → gc.max_points = some mp →
      gc.percentage = .ok (some (100 * p / mp)) := by
  refine ⟨by decide, by decide, ?_⟩
  intro gc p mp hp hmp
  unfold GradeChange.percentage
  rw [hmp, hp]

/-- Witness for the universally quantified half of C2's theorem: 40 out of
100 points is 40 percent. -/
theorem C2_percentage_guard_on_wrong_field_witness :
    GradeChange.percentage (sampleGraded 1 (some 40) none) = .ok (some (100 * 40 / 100)) :=
  C2_percentage_guard_on_wrong_field.2.2 (sampleGraded 1 (some 40) none) 40 100 rfl rfl


open GradeStateMachine

/-- Counterexample to claim C3 as stated: `consume` does mutate its input
events.  An event handed in with its supersession flag set comes back with
the flag cleared, because the loop assigns `gchange.is_superseded = False`
to every event it consumes. -/
theorem C3_counterexample :
    ((consume .init [{ sampleGraded 1 (some 40) none with is_superseded := true }]
        false).toOption.map (fun r => r.2.map GradeChange.is_superseded)) =
      some [false] := by decide

/-- Claim C3, amended: the reduction leaves every field of every
caller-owned event unchanged **except** the supersession flag (which it
overwrites: `False` for each consumed event, `True` on earlier same-attempt
events when `markSuperseded`).  Formally: erasing the `is_superseded` flag,
the event list returned by `consume` equals the input list. -/
theorem C3_only_supersession_flag_mutated
    (events : List GradeChange) (b : Bool) (sm' : GradeStateMachine)
    (events' : List GradeChange)
    (h : consume .init events b = .ok (sm', events')) :
    events'.map eraseSup = events.map eraseSup := by
  unfold consume at h
  split at h
  · exact absurd h (by simp)
  · rename_i sm1 store1 hev
    split at h
    · exact absurd h (by simp)
    · simp only [Except.ok.injEq, Prod.mk.injEq] at h
      obtain ⟨h1, h2⟩ := h
      subst h1; subst h2
      exact ((consumeEvents_step b (indexed events) .init events rfl).2
        _ _ hev).2.1

/-- Witness for C3's amended theorem at a concrete input: a one-event
reduction returns the event with every field except the flag intact. -/
theorem C3_only_supersession_flag_mutated_witness :
    ([sampleGraded 1 (some 40) none].map eraseSup) =
      ([{ sampleGraded 1 (some 40) none with is_superseded := true }].map eraseSup) :=
  C3_only_supersession_flag_mutated
    [{ sampleGraded 1 (some 40) none with is_superseded := true }] false
    { opportunity := some sampleOpp, state := some .graded, due_time := none,
      last_graded_time := some 1, last_report_time := none,
      last_grade_change_time := none, last_grade_time := none,
      valid_percentages := [some (100 * 40 / 100)], attempt_id_to_gchange := none }
    [sampleGraded 1 (some 40) none] rfl

/-- Counterexample to claim C5 as stated: a finished reduction cannot be
incrementally continued.  After `consume` over `[e1, e2]`, continuing the
same carried state with `[e3]` raises `AttributeError` (the attempt map was
deleted by finalization), while the single reduction over `[e1, e2, e3]`
succeeds. -/
theorem C5_counterexample :
    ((consume .init [sampleGraded 1 (some 40) none, sampleGraded 2 (some 50) none]
        true).toOption.map (fun r => consume r.1 [sampleGraded 3 (some 60) none] true)) =
      some (.error .attributeError) ∧
    (consume .init [sampleGraded 1 (some 40) none, sampleGraded 2 (some 50) none,
        sampleGraded 3 (some 60) none] true).isOk = true := by
  constructor <;> decide

/-- Claim C5, amended: fold associativity holds at the event-loop level,
before finalization — processing `p1 ++ p2` in one pass equals processing
`p1` and then continuing the same (not yet finalized) pass with `p2`.  A
finished `consume`, however, has deleted the attempt map
(`attempt_id_to_gchange = none`, second conjunct), which is why reusing the
carried state in a second `consume` call fails instead of continuing the
fold. -/
theorem C5_continuation_before_finalization :
    (∀ (b : Bool) (p1 p2 : List (ℕ × GradeChange)) (sm : GradeStateMachine)
        (store : List GradeChange),
      consumeEvents b sm store (p1 ++ p2) =
        match consumeEvents b sm store p1 with
        | .error e => .error e
        | .ok (sm', store') => consumeEvents b sm' store' p2) ∧
    (∀ (sm : GradeStateMachine) (events : List GradeChange) (b : Bool)
        (sm' : GradeStateMachine) (store' : List GradeChange),
      consume sm events b = .ok (sm', store') →
      sm'.attempt_id_to_gchange = none) := by
  constructor
  · intro b p1
    induction p1 with
    | nil =>
      intro p2 sm store
      simp only [List.nil_append, consumeEvents]
    | cons p rest ih =>
      intro p2 sm store
      obtain ⟨i, g⟩ := p
      simp only [List.cons_append, consumeEvents]
      cases hcg : consume_grade_change sm
          (modifyIdx store i (fun x => { x with is_superseded := false }))
          { g with is_superseded := false } i b with
      | error e => simp
      | ok pr => exact ih p2 pr.1 pr.2
  · intro sm events b sm' store' h
    unfold consume at h
    split at h
    · exact absurd h (by simp)
    · rename_i sm1 store1 hev
      split at h
      · exact absurd h (by simp)
      · rename_i sm2 hfin
        simp only [Except.ok.injEq, Prod.mk.injEq] at h
        obtain ⟨h1, h2⟩ := h
        subst h1; subst h2
        exact finalize_map_none _ _ hfin

/-- Witness for the hypothesis-bearing half of C5's theorem: a concrete
finished reduction carries no attempt map. -/
theorem C5_continuation_before_finalization_witness :
    ({ opportunity := some sampleOpp, state := some .graded, due_time := none,
       last_graded_time := some 1, last_report_time := none,
       last_grade_change_time := none, last_grade_time := none,
       valid_percentages := [some 40], attempt_id_to_gchange := none
       } : GradeStateMachine).attempt_id_to_gchange = none :=
  C5_continuation_before_finalization.2 .init [sampleGraded 1 (some 40) none] false
    { opportunity := some sampleOpp, state := some .graded, due_time := none,
      last_graded_time := some 1, last_report_time := none,
      last_grade_change_time := none, last_grade_time := none,
      valid_percentages := [some (100 * 40 / 100)], attempt_id_to_gchange := none }
    [sampleGraded 1 (some 40) none] rfl


open GradeStateMachine

/-- Counterexample to claim C4 as stated: when the carried state is
`unavailable`, `stringify_state` returns `"(other state)"`, not `"-"` — the
code maps only the unset state to `"-"`. -/
theorem C4_counterexample :
    ((consume .init [{ sampleGraded 1 (some 40) none with state := .unavailable }]
        false).toOption.map (fun r => r.1.stringify_state)) =
      some (.ok "(other state)") := by decide

/-- Machine with three aggregated percentages averaging 87.5, for the
display annotation scenario. -/
def sampleAvgMachine : GradeStateMachine :=
  { init with
    opportunity := some { pk := 1, aggregation_strategy := .avg_grade, due_time := none }
    state := some .graded
    valid_percentages := [some 100, some 75, some (175/2)] }

/-- Claim C4, amended: `"-"` only when the state is unset (an `unavailable`
state displays as `"(other state)"`, only `exempt` gets its own literal);
a `graded` state displays the aggregated percentage as `"<pct>%"`,
annotated with `" (/<n>)"` exactly when more than one percentage was
aggregated. -/
theorem C4_display_mapping (sm : GradeStateMachine) :
    (sm.state = none → sm.stringify_state = .ok "-") ∧
    (sm.state = some .exempt → sm.stringify_state = .ok "(exempt)") ∧
    (sm.state = some .unavailable → sm.stringify_state = .ok "(other state)") ∧
    (∀ q : ℚ, sm.state = some .graded → sm.percentage = .ok (some q) →
      sm.stringify_state =
        .ok (if sm.valid_percentages.length > 1 then
              formatPct1 q ++ "%" ++ " (/" ++ toString sm.valid_percentages.length ++ ")"
            else formatPct1 q ++ "%")) := by
  refine ⟨?_, ?_, ?_, ?_⟩
  · intro h; unfold stringify_state; rw [h]
  · intro h; unfold stringify_state; rw [h]
  · intro h; unfold stringify_state; rw [h]
  · intro q h hp; unfold stringify_state; rw [h, hp]

/-- Witness for C4's amended theorem: the sample machine displays
`"87.5% (/3)"` — percent string with the `/3` contribution count. -/
theorem C4_display_mapping_witness :
    sampleAvgMachine.stringify_state = .ok "87.5% (/3)" := by
  rw [(C4_display_mapping sampleAvgMachine).2.2.2
    ((100 + (75 + (175/2 + 0))) / ((3:ℕ):ℚ)) rfl rfl]
  have h : ((100 + (75 + (175/2 + 0))) / ((3:ℕ):ℚ)) = 175/2 := by norm_num
  rw [h]
  have h2 : ((175:ℚ)/2 * 10) = 875 := by norm_num
  have h3 : roundHalfEven 875 = 875 := by unfold roundHalfEven; norm_num
  unfold formatPct1
  rw [h2, h3]
  rfl

/-- Claim C9: `unavailable` and `exempt` events reset all grade
accumulation (`_clear_grades`: `valid_percentages` emptied, attempt map
emptied, prior state dropped) and then set the state field to
`unavailable`/`exempt` respectively; a `do_over` event performs the same
reset and leaves the state field unset. -/
theorem C9_reset_events (sm : GradeStateMachine) (store : List GradeChange)
    (g : GradeChange) (i : ℕ) (b : Bool) (opp : GradingOpportunity)
    (hop : sm.opportunity = some opp) (hpk : opp.pk = g.opportunity.pk)
    (hlg : sm.last_grade_change_time = none) :
    (g.state = .unavailable → consume_grade_change sm store g i b =
      .ok ({ sm.clear_grades with state := some .unavailable }, store)) ∧
    (g.state = .exempt → consume_grade_change sm store g i b =
      .ok ({ sm.clear_grades with state := some .exempt }, store)) ∧
    (g.state = .do_over → consume_grade_change sm store g i b =
      .ok (sm.clear_grades, store)) ∧
    sm.clear_grades.state = none ∧
    sm.clear_grades.valid_percentages = [] ∧
    sm.clear_grades.attempt_id_to_gchange = some [] := by
  rw [consume_grade_change_ready sm store g i b opp hop hpk hlg]
  refine ⟨?_, ?_, ?_, rfl, rfl, rfl⟩ <;> intro h <;> rw [h]

/-- Witness for C9 at a concrete input: a `do_over` event clears a machine
that had accumulated a percentage and a `graded` state, leaving the state
field unset. -/
theorem C9_reset_events_witness :
    consume_grade_change
      { init with opportunity := some sampleOpp, state := some .graded,
                  valid_percentages := [some 40] }
      [] { sampleGraded 2 none none with state := .do_over } 0 false =
    .ok (GradeStateMachine.clear_grades
      { init with opportunity := some sampleOpp, state := some .graded,
                  valid_percentages := [some 40] }, []) :=
  (C9_reset_events
    { init with opportunity := some sampleOpp, state := some .graded,
                valid_percentages := [some 40] }
    [] { sampleGraded 2 none none with state := .do_over } 0 false
    sampleOpp rfl rfl rfl).2.2.1 rfl


open GradeStateMachine

/-- Claim C8: a `graded` event past the effective due time fails with
`GradeAfterDueDate`; at or before the due time (or with no due time set) it
is accepted; an `extension` event replaces the running due time with the
event's `due_time` and leaves the state field unchanged, so later `graded`
events are judged against the new deadline. -/
theorem C8_due_date_and_extension (sm : GradeStateMachine)
    (store : List GradeChange) (g : GradeChange) (i : ℕ) (b : Bool)
    (opp : GradingOpportunity)
    (hop : sm.opportunity = some opp) (hpk : opp.pk = g.opportunity.pk)
    (hlg : sm.last_grade_change_time = none)
    (hsu : sm.state ≠ some .unavailable) (hse : sm.state ≠ some .exempt) :
    (∀ dt : ℤ, g.state = .graded → sm.due_time = some dt →
      ((dt < g.grade_time →
          consume_grade_change sm store g i b = .error .gradeAfterDueDate) ∧
       (g.grade_time ≤ dt → ∀ p mp : ℚ, g.points = some p → g.max_points = some mp →
          g.attempt_id = none →
          consume_grade_change sm store g i b =
            .ok ({ sm with
                   state := some .graded,
                   valid_percentages := sm.valid_percentages ++ [some (100 * p / mp)],
                   last_graded_time := some g.grade_time }, store)))) ∧
    (g.state = .graded → sm.due_time = none → ∀ p mp : ℚ, g.points = some p →
      g.max_points = some mp → g.attempt_id = none →
      consume_grade_change sm store g i b =
        .ok ({ sm with
               state := some .graded,
               valid_percentages := sm.valid_percentages ++ [some (100 * p / mp)],
               last_graded_time := some g.grade_time }, store)) ∧
    (g.state = .extension → consume_grade_change sm store g i b =
      .ok ({ sm with due_time := g.due_time }, store)) := by
  rw [consume_grade_change_ready sm store g i b opp hop hpk hlg]
  refine ⟨?_, ?_, ?_⟩
  · intro dt hgs hdt
    rw [hgs]
    constructor
    · intro hlt
      simp [hsu, hse, hdt, hlt]
    · intro hle p mp hp hmp haid
      have hnlt : ¬ (dt < g.grade_time) := not_lt.mpr hle
      simp [hsu, hse, hdt, hnlt, consumeGraded, haid, GradeChange.percentage, hmp, hp]
  · intro hgs hdt p mp hp hmp haid
    rw [hgs]
    simp [hsu, hse, hdt, consumeGraded, haid, GradeChange.percentage, hmp, hp]
  · intro hgs
    rw [hgs]

/-- Machine with a 100 due time, for the C8 scenarios. -/
def sampleDueMachine : GradeStateMachine :=
  { init with opportunity := some sampleOpp, due_time := some 100 }

/-- Witness for C8 at concrete inputs: with due time 100, a grade at time
101 is rejected while a grade at time 99 is accepted; an extension event
carrying due time 200 replaces the due time. -/
theorem C8_due_date_and_extension_witness :
    consume_grade_change sampleDueMachine []
      (sampleGraded 101 (some 40) none) 0 false = .error .gradeAfterDueDate ∧
    consume_grade_change sampleDueMachine []
      (sampleGraded 99 (some 40) none) 0 false =
      .ok ({ sampleDueMachine with
             state := some .graded,
             valid_percentages :=
               sampleDueMachine.valid_percentages ++ [some (100 * 40 / 100)],
             last_graded_time := some 99 }, []) ∧
    consume_grade_change sampleDueMachine []
      { sampleGraded 150 none none with state := .extension, due_time := some 200 }
      0 false =
      .ok ({ sampleDueMachine with due_time := some 200 }, []) := by
  refine ⟨?_, ?_, ?_⟩
  · exact ((C8_due_date_and_extension sampleDueMachine []
      (sampleGraded 101 (some 40) none) 0 false sampleOpp rfl rfl rfl
      (by simp [sampleDueMachine, init]) (by simp [sampleDueMachine, init])).1
      100 rfl rfl).1 (by decide)
  · exact ((C8_due_date_and_extension sampleDueMachine []
      (sampleGraded 99 (some 40) none) 0 false sampleOpp rfl rfl rfl
      (by simp [sampleDueMachine, init]) (by simp [sampleDueMachine, init])).1
      100 rfl rfl).2 (by decide) 40 100 rfl rfl rfl
  · exact (C8_due_date_and_extension sampleDueMachine []
      { sampleGraded 150 none none with state := .extension, due_time := some 200 }
      0 false sampleOpp rfl rfl rfl
      (by simp [sampleDueMachine, init]) (by simp [sampleDueMachine, init])).2.2 rfl


namespace GradeStateMachine

/-- A `graded` event carrying an attempt id always ends up as that
attempt's entry in the map (overwriting any earlier entry). -/
theorem consumeGraded_find (sm : GradeStateMachine) (store : List GradeChange)
    (g : GradeChange) (i : ℕ) (b : Bool) (aid : String)
    (haid : g.attempt_id = some aid) (sm' : GradeStateMachine)
    (store' : List GradeChange)
    (h : consumeGraded sm store g i b = .ok (sm', store')) :
    ∃ m', sm'.attempt_id_to_gchange = some m' ∧ dictFind m' aid = some (i, g) := by
  unfold consumeGraded at h
  simp only [haid] at h
  split at h
  · exact absurd h (by simp)
  · simp only [Except.ok.injEq, Prod.mk.injEq] at h
    obtain ⟨h1, h2⟩ := h
    subst h1
    exact ⟨_, rfl, dictFind_dictInsert _ _ _⟩

end GradeStateMachine

open GradeStateMachine

/-- Fresh machine that has already adopted `sampleOpp`. -/
def sampleOppMachine : GradeStateMachine :=
  { init with opportunity := some sampleOpp }

/-- Claim C6: two `graded` events sharing attempt id "A" with percentages
40 and later 90, reduced with `markSuperseded = true`: the earlier event
comes back flagged superseded and finalization puts only 90 (as
`100·90/100`) into `valid_percentages`.  In general (second conjunct), a
consumed `graded` event with an attempt id becomes that attempt's entry in
the map, so each attempt group contributes exactly its final graded event's
percentage at finalization. -/
theorem C6_supersession :
    ((consume .init [sampleGraded 1 (some 40) (some "A"),
        sampleGraded 2 (some 90) (some "A")] true).toOption.map
      (fun r => (r.1.valid_percentages, r.2.map GradeChange.is_superseded))) =
      some ([some (100 * 90 / 100)], [true, false]) ∧
    ∀ (sm : GradeStateMachine) (store : List GradeChange) (g : GradeChange)
      (i : ℕ) (b : Bool) (opp : GradingOpportunity) (aid : String)
      (sm' : GradeStateMachine) (store' : List GradeChange),
      sm.opportunity = some opp → opp.pk = g.opportunity.pk →
      sm.last_grade_change_time = none →
      g.state = .graded → g.attempt_id = some aid →
      consume_grade_change sm store g i b = .ok (sm', store') →
      ∃ m', sm'.attempt_id_to_gchange = some m' ∧ dictFind m' aid = some (i, g) := by
  constructor
  · rfl
  · intro sm store g i b opp aid sm' store' hop hpk hlg hgs haid hok
    rw [consume_grade_change_ready sm store g i b opp hop hpk hlg] at hok
    simp only [hgs] at hok
    split at hok
    · exact absurd hok (by simp)
    · split at hok
      · exact absurd hok (by simp)
      · split at hok
        · split at hok
          · exact absurd hok (by simp)
          · exact consumeGraded_find _ _ _ _ _ _ haid _ _ hok
        · exact consumeGraded_find _ _ _ _ _ _ haid _ _ hok

/-- Witness for the universally quantified half of C6: consuming one graded
event with attempt id "A" records it in the attempt map under "A". -/
theorem C6_supersession_witness :
    ∃ m', ({ sampleOppMachine with
             state := some .graded,
             attempt_id_to_gchange := some [("A", (0, sampleGraded 1 (some 40) (some "A")))],
             last_graded_time := some 1 } : GradeStateMachine).attempt_id_to_gchange =
        some m' ∧
      dictFind m' "A" = some (0, sampleGraded 1 (some 40) (some "A")) :=
  C6_supersession.2 sampleOppMachine [] (sampleGraded 1 (some 40) (some "A")) 0 true
    sampleOpp "A"
    { sampleOppMachine with
      state := some .graded,
      attempt_id_to_gchange := some [("A", (0, sampleGraded 1 (some 40) (some "A")))],
      last_graded_time := some 1 }
    [] rfl rfl rfl rfl rfl rfl


namespace GradeStateMachine

theorem pyMax2_some (x y : ℚ) : pyMax2 (some x) (some y) = some (max x y) := by
  simp only [pyMax2]
  rcases le_total y x with h | h
  · rw [if_pos h, max_eq_left h]
  · rcases eq_or_lt_of_le h with rfl | hlt
    · simp
    · rw [if_neg (not_le.mpr hlt), max_eq_right h]

theorem pyMin2_some (x y : ℚ) : pyMin2 (some x) (some y) = some (min x y) := by
  simp only [pyMin2]
  rcases le_total x y with h | h
  · rw [if_pos h, min_eq_left h]
  · rcases eq_or_lt_of_le h with rfl | hlt
    · simp
    · rw [if_neg (not_le.mpr hlt), min_eq_right h]

theorem foldl_pyMax2_map_some (l : List ℚ) (x : ℚ) :
    (l.map some).foldl pyMax2 (some x) = some (l.foldl max x) := by
  induction l generalizing x with
  | nil => rfl
  | cons y ys ih => simp only [List.map_cons, List.foldl_cons, pyMax2_some, ih]

theorem foldl_pyMin2_map_some (l : List ℚ) (x : ℚ) :
    (l.map some).foldl pyMin2 (some x) = some (l.foldl min x) := by
  induction l generalizing x with
  | nil => rfl
  | cons y ys ih => simp only [List.map_cons, List.foldl_cons, pyMin2_some, ih]

theorem foldl_max_spec (l : List ℚ) (x : ℚ) :
    (l.foldl max x = x ∨ l.foldl max x ∈ l) ∧ x ≤ l.foldl max x ∧
      ∀ y ∈ l, y ≤ l.foldl max x := by
  induction l generalizing x with
  | nil => exact ⟨Or.inl rfl, le_refl x, by simp⟩
  | cons y ys ih =>
    obtain ⟨h1, h2, h3⟩ := ih (max x y)
    simp only [List.foldl_cons]
    refine ⟨?_, ?_, ?_⟩
    · rcases h1 with h | h
      · rcases max_choice x y with hm | hm
        · exact Or.inl (by rw [h, hm])
        · exact Or.inr (by rw [h, hm]; exact List.mem_cons_self y ys)
      · exact Or.inr (List.mem_cons_of_mem y h)
    · exact le_trans (le_max_left x y) h2
    · intro z hz
      rcases List.mem_cons.mp hz with rfl | hz'
      · exact le_trans (le_max_right x z) h2
      · exact h3 z hz'

theorem foldl_min_spec (l : List ℚ) (x : ℚ) :
    (l.foldl min x = x ∨ l.foldl min x ∈ l) ∧ l.foldl min x ≤ x ∧
      ∀ y ∈ l, l.foldl min x ≤ y := by
  induction l generalizing x with
  | nil => exact ⟨Or.inl rfl, le_refl x, by simp⟩
  | cons y ys ih =>
    obtain ⟨h1, h2, h3⟩ := ih (min x y)
    simp only [List.foldl_cons]
    refine ⟨?_, ?_, ?_⟩
    · rcases h1 with h | h
      · rcases min_choice x y with hm | hm
        · exact Or.inl (by rw [h, hm])
        · exact Or.inr (by rw [h, hm]; exact List.mem_cons_self y ys)
      · exact Or.inr (List.mem_cons_of_mem y h)
    · exact le_trans h2 (min_le_left x y)
    · intro z hz
      rcases List.mem_cons.mp hz with rfl | hz'
      · exact le_trans h2 (min_le_right x z)
      · exact h3 z hz'

theorem pysum_map_some (l : List ℚ) : pysum (l.map some) = .ok l.sum := by
  induction l with
  | nil => rfl
  | cons x xs ih =>
    unfold pysum
    simp only [List.map_cons, ih, List.sum_cons]

theorem getLastD_map_some (x : ℚ) (l : List ℚ) :
    ((x :: l).map some).getLastD none = (x :: l).getLast? := by
  induction l generalizing x with
  | nil => rfl
  | cons y ys ih =>
    simp only [List.map_cons] at *
    rw [List.getLastD_cons, List.getLast?_cons_cons]
    exact ih y

end GradeStateMachine

open GradeStateMachine

/-- Machine holding the percentages [100, 50, 75] under the given
aggregation strategy. -/
def aggExample (s : AggStrategy) : GradeStateMachine :=
  { init with
    opportunity := some { pk := 1, aggregation_strategy := s, due_time := none }
    valid_percentages := [some 100, some 50, some 75] }

/-- Claim C7: `percentage()` is unset when no opportunity was ever consumed
or `valid_percentages` is empty; otherwise it is the maximum / minimum /
arithmetic mean / first / last element of `valid_percentages` according to
the strategy; for [100, 50, 75] that is max → 100, min → 50, average → 75,
use_earliest → 100, use_latest → 75. -/
theorem C7_percentage_query :
    (∀ sm : GradeStateMachine, sm.opportunity = none → sm.percentage = .ok none) ∧
    (∀ sm : GradeStateMachine, sm.valid_percentages = [] → sm.percentage = .ok none) ∧
    (∀ (sm : GradeStateMachine) (opp : GradingOpportunity) (x : ℚ) (l : List ℚ),
      sm.opportunity = some opp → sm.valid_percentages = (x :: l).map some →
      ((opp.aggregation_strategy = .max_grade →
        ∃ M, sm.percentage = .ok (some M) ∧ M ∈ x :: l ∧ ∀ y ∈ x :: l, y ≤ M) ∧
       (opp.aggregation_strategy = .min_grade →
        ∃ M, sm.percentage = .ok (some M) ∧ M ∈ x :: l ∧ ∀ y ∈ x :: l, M ≤ y) ∧
       (opp.aggregation_strategy = .avg_grade →
        sm.percentage = .ok (some ((x :: l).sum / ((x :: l).length : ℚ)))) ∧
       (opp.aggregation_strategy = .use_earliest → sm.percentage = .ok (some x)) ∧
       (opp.aggregation_strategy = .use_latest →
        sm.percentage = .ok ((x :: l).getLast?)))) ∧
    ((aggExample .max_grade).percentage = .ok (some 100) ∧
     (aggExample .min_grade).percentage = .ok (some 50) ∧
     (aggExample .avg_grade).percentage = .ok (some 75) ∧
     (aggExample .use_earliest).percentage = .ok (some 100) ∧
     (aggExample .use_latest).percentage = .ok (some 75)) := by
  refine ⟨?_, ?_, ?_, ?_, ?_, ?_, ?_, ?_⟩
  · intro sm h
    simp only [percentage, h]
  · intro sm h
    cases hop : sm.opportunity
    · simp only [percentage, hop]
    · simp [percentage, hop, h]
  · intro sm opp x l hop hvp
    have hne : sm.valid_percentages ≠ [] := by rw [hvp]; simp
    refine ⟨?_, ?_, ?_, ?_, ?_⟩ <;> intro hs <;>
      simp only [percentage, hop, hs] <;> rw [if_neg hne]
    · refine ⟨l.foldl max x, ?_, ?_, ?_⟩
      · rw [hvp]
        simp only [List.map_cons, pymax, foldl_pyMax2_map_some]
      · rcases (foldl_max_spec l x).1 with h | h
        · rw [h]; exact List.mem_cons_self x l
        · exact List.mem_cons_of_mem x h
      · intro y hy
        rcases List.mem_cons.mp hy with rfl | hy'
        · exact (foldl_max_spec l y).2.1
        · exact (foldl_max_spec l x).2.2 y hy'
    · refine ⟨l.foldl min x, ?_, ?_, ?_⟩
      · rw [hvp]
        simp only [List.map_cons, pymin, foldl_pyMin2_map_some]
      · rcases (foldl_min_spec l x).1 with h | h
        · rw [h]; exact List.mem_cons_self x l
        · exact List.mem_cons_of_mem x h
      · intro y hy
        rcases List.mem_cons.mp hy with rfl | hy'
        · exact (foldl_min_spec l y).2.1
        · exact (foldl_min_spec l x).2.2 y hy'
    · rw [hvp, pysum_map_some, List.length_map]
    · rw [hvp]
      rfl
    · rw [hvp, getLastD_map_some]
  · rfl
  · rfl
  · have h : (aggExample .avg_grade).percentage =
        .ok (some ((100 + (50 + (75 + 0))) / ((3:ℕ):ℚ))) := rfl
    rw [h]
    norm_num
  · rfl
  · rfl

/-- Witness for the hypothesis-bearing parts of C7: the `use_earliest`
strategy on [100, 50, 75] picks the first percentage, 100. -/
theorem C7_percentage_query_witness :
    (aggExample .use_earliest).percentage = .ok (some 100) :=
  ((C7_percentage_query.2.2.1 (aggExample .use_earliest)
    { pk := 1, aggregation_strategy := .use_earliest, due_time := none }
    100 [50, 75] rfl rfl).2.2.2.1) rfl


open GradeStateMachine

/-- Claim C10 (implicit invariant): a completed reduction whose final state
is `graded` has a non-empty `valid_percentages` — every transition into the
`graded` state records a contribution (a direct append or an attempt-map
entry flushed at finalization), and every transition that clears
`valid_percentages` also clears the `graded` state. -/
theorem C10_graded_state_witnessed (events : List GradeChange) (b : Bool)
    (sm' : GradeStateMachine) (store' : List GradeChange)
    (h : GradeStateMachine.consume .init events b = .ok (sm', store'))
    (hg : sm'.state = some .graded) :
    sm'.valid_percentages ≠ [] := by
  unfold consume at h
  split at h
  · exact absurd h (by simp)
  · rename_i sm1 store1 hev
    split at h
    · exact absurd h (by simp)
    · rename_i sm2 hfin
      simp only [Except.ok.injEq, Prod.mk.injEq] at h
      obtain ⟨h1, h2⟩ := h
      subst h1; subst h2
      have hwit : GradedWitnessed sm1 :=
        ((consumeEvents_step b (indexed events) .init events rfl).2 sm1 store1
          hev).2.2 (fun hc => absurd hc (by simp [init]))
      obtain ⟨hst, hopq, m, ps, hm, hps, hvp⟩ := finalize_ok sm1 _ hfin
      rw [hst] at hg
      rcases hwit hg with hne | ⟨m0, hm0, hm0ne⟩
      · rw [hvp]
        intro hc
        exact hne (List.append_eq_nil.mp hc).1
      · have hmm : m = m0 := Option.some.inj (hm.symm.trans hm0)
        have hlen : ps.length = m.length := by
          simpa using mapPercentages_length (m.map (fun kv => kv.2.2)) ps hps
        rw [hvp]
        intro hc
        have hps0 : ps = [] := (List.append_eq_nil.mp hc).2
        rw [hps0] at hlen
        exact hm0ne (hmm ▸ List.eq_nil_of_length_eq_zero hlen.symm)

/-- Witness for C10 at a concrete input: a one-event reduction finishing
`graded` carries the event's percentage. -/
theorem C10_graded_state_witnessed_witness :
    ({ opportunity := some sampleOpp, state := some .graded, due_time := none,
       last_graded_time := some 1, last_report_time := none,
       last_grade_change_time := none, last_grade_time := none,
       valid_percentages := [some (100 * 40 / 100)], attempt_id_to_gchange := none
       } : GradeStateMachine).valid_percentages ≠ [] :=
  C10_graded_state_witnessed [sampleGraded 1 (some 40) none] false
    { opportunity := some sampleOpp, state := some .graded, due_time := none,
      last_graded_time := some 1, last_report_time := none,
      last_grade_change_time := none, last_grade_time := none,
      valid_percentages := [some (100 * 40 / 100)], attempt_id_to_gchange := none }
    [sampleGraded 1 (some 40) none] rfl rfl


end Relate
